import Mathlib

/-!
Shallow embedding of the ZKTeco fleet-sync scripts (src/zkteco_all.py and
src/simple.py) and proofs about the claims of their specification.

Conventions of the embedding:
* Python strings are Lean `String`s; a field that may be absent on a raw
  record (duck-typed `hasattr` / `getattr` access) is an `Option`.
* A Python value that is fed through `str(...)` before use is modelled as the
  resulting string directly.
* Exceptions raised by the external world (sqlite, the device library) are
  modelled by explicit boolean / oracle parameters, since whether they fire
  is not determined by the program itself.
* SQLite tables are modelled as lists of rows in insertion order.
-/

namespace ZKTeco

set_option autoImplicit false

/-- Python `a or b` on strings: the empty string is falsy. -/
def pyOrStr (a b : String) : String := if a = "" then b else a

/-- Python `s.strip()`: drop leading and trailing whitespace (computed on
the character list so that it reduces in the kernel). -/
def pyStrip (s : String) : String :=
  String.mk (((s.data.dropWhile Char.isWhitespace).reverse.dropWhile Char.isWhitespace).reverse)

/-- Python `str(x)` where `x : Option String` may be `None`. -/
def pyStrOf (o : Option String) : String :=
  match o with
  | some s => s
  | none => "None"

/-- Python `str(x)` where `x : Option Int` may be absent (renders as ""
via `getattr(att, 'uid', '')`). -/
def optIntStr (o : Option Int) : String :=
  match o with
  | some i => toString i
  | none => ""

/-- A Python dict from string keys to string values, in insertion order. -/
abbrev Dict := List (String × String)

/-- Python `d.get(k)`: the value stored under `k`, if any. -/
def dictGet (d : Dict) (k : String) : Option String :=
  (d.find? (fun p => p.1 == k)).map Prod.snd

/-- Python `d[k] = v`: overwrite the entry if the key exists, else append. -/
def dictSet (d : Dict) (k v : String) : Dict :=
  if d.any (fun p => p.1 == k) then
    d.map (fun p => if p.1 == k then (k, v) else p)
  else
    d ++ [(k, v)]

/-! ### Raw device user records and the users table -/

/-- Constant `const.USER_DEFAULT` of the device library. -/
def USER_DEFAULT : Int := 0

/-- Constant `const.USER_ADMIN` of the device library. -/
def USER_ADMIN : Int := 14

/-- A raw user record as returned by `conn.get_users()`.  String fields may
be `None` (hence `Option`); `card` may be absent or `None` (both modelled
as `none`). -/
structure PyUser where
  uid : Int
  name : Option String
  privilege : Int
  password : Option String
  group_id : Option String
  user_id : Option String
  card : Option Int
deriving DecidableEq

/-- A persisted row of the `users` table (src/zkteco_all.py, init_database). -/
structure UserRow where
  device_ip : String
  uid : Int
  name : String
  privilege : String
  password : String
  group_id : String
  user_id : String
  card : String
deriving DecidableEq

/-- Privilege label of src/zkteco_all.py:
`"Admin" if user.privilege == const.USER_ADMIN else "User"`. -/
def normPrivilege (p : Int) : String :=
  if p = USER_ADMIN then "Admin" else "User"

/-- Privilege label of src/simple.py, collect_user_rows:
`'User' if user.privilege == const.USER_DEFAULT else 'Admin-%s' % user.privilege`. -/
def collectPrivilege (p : Int) : String :=
  if p = USER_DEFAULT then "User" else "Admin-" ++ toString p

/-- One batch tuple of save_users_to_db (src/zkteco_all.py lines 171-181):
optional fields default via `x or ""`, the card via
`str(user.card) if hasattr(user, 'card') and user.card else ""`. -/
def userRowOf (device_ip : String) (u : PyUser) : UserRow :=
  { device_ip := device_ip
    uid := u.uid
    name := u.name.getD ""
    privilege := normPrivilege u.privilege
    password := u.password.getD ""
    group_id := u.group_id.getD ""
    user_id := u.user_id.getD ""
    card :=
      match u.card with
      | some c => if c = 0 then "" else toString c
      | none => "" }

/-- The conflict key of the `users` table: `UNIQUE(device_ip, uid)`. -/
def userKey (r : UserRow) : String × Int := (r.device_ip, r.uid)

/-- SQLite `INSERT OR REPLACE` on `users`: the conflicting row (same
`(device_ip, uid)`) is deleted and the new row appended. -/
def insertOrReplace (db : List UserRow) (r : UserRow) : List UserRow :=
  db.filter (fun q => decide (userKey q ≠ userKey r)) ++ [r]

/-- Result of one save_users_to_db call. -/
structure UserSaveResult where
  db : List UserRow
  savedCount : Nat
  ok : Bool
deriving DecidableEq

/-- save_users_to_db (src/zkteco_all.py lines 161-197).  The whole batch is
written by a single `executemany` followed by a single `commit` under the
default sqlite isolation level, so a failing bulk insert (modelled by
`insertFails`, caught by the surrounding `except`) leaves the table
unchanged: nothing was committed. -/
def save_users_to_db (users : List PyUser) (device_ip : String)
    (insertFails : Bool) (db : List UserRow) : UserSaveResult :=
  let batch := users.map (userRowOf device_ip)
  if insertFails then
    { db := db, savedCount := 0, ok := false }
  else
    { db := batch.foldl insertOrReplace db, savedCount := batch.length, ok := true }

/-! ### Name resolution -/

/-- Lookup `users_dict.get(k1, "") or users_dict.get(k2, "")` on two string
keys (src/zkteco_all.py lines 112 and 655). -/
def resolveStr (d : Dict) (k1 k2 : String) : String :=
  pyOrStr ((dictGet d k1).getD "") ((dictGet d k2).getD "")

/-- Name resolution for an attendance event:
`users_dict.get(str(uid), "") or users_dict.get(user_id, "")`. -/
def resolve (d : Dict) (uid : Int) (user_id : String) : String :=
  resolveStr d (toString uid) user_id

/-- The uid/user_id -> name index built before attendance processing
(src/zkteco_all.py lines 416-419): each user is inserted under both its
uid-as-string key and its user_id key, last write winning.  A `None`
user_id key is rendered through `str`. -/
def buildUsersDict (users : List PyUser) : Dict :=
  users.foldl
    (fun d u =>
      dictSet (dictSet d (toString u.uid) (u.name.getD "")) (pyStrOf u.user_id) (u.name.getD ""))
    []

/-! ### Raw attendance records and the attendance table -/

/-- A raw attendance record as yielded by `conn.get_attendance()` or
`conn.live_capture()`.  `none` on `user_id`/`timestamp` means the attribute
is absent (`hasattr` fails); `none` on `uid`/`status`/`punch` means the
attribute is absent or not coercible to `int` (both default to 0 in the
source).  String fields stand for `str(...)` of the Python value. -/
structure RawAtt where
  user_id : Option String
  timestamp : Option String
  uid : Option Int
  status : Option Int
  punch : Option Int
deriving DecidableEq

/-- A persisted row of the `attendance` table (src/zkteco_all.py,
init_database). -/
structure AttRow where
  device_ip : String
  uid : Int
  user_id : String
  name : String
  timestamp : String
  status : Int
  punch : Int
deriving DecidableEq

/-- The conflict key of the `attendance` table:
`UNIQUE(device_ip, user_id, timestamp)`. -/
def attKey (r : AttRow) : String × String × String := (r.device_ip, r.user_id, r.timestamp)

/-- SQLite `INSERT OR IGNORE` on `attendance`: a row whose key already
exists is dropped, otherwise it is appended. -/
def insertOrIgnore (db : List AttRow) (r : AttRow) : List AttRow :=
  if attKey r ∈ db.map attKey then db else db ++ [r]

/-- The chunk size of the attendance bulk load (`if len(batch) >= 1000`). -/
def CHUNK_SIZE : Nat := 1000

/-- Whether save_attendance_to_db keeps a raw record: both attributes are
present and the trimmed user_id is nonempty (lines 85-87, 107-109). -/
def attKeep (a : RawAtt) : Bool :=
  a.user_id.isSome && a.timestamp.isSome && !(pyStrip (a.user_id.getD "") == "")

/-- The batch tuple built for a kept record (lines 89-114): uid/status/punch
coerced with default 0, user_id/timestamp trimmed, name resolved from the
users dict. -/
def attRowOf (dict : Dict) (device_ip : String) (a : RawAtt) : AttRow :=
  { device_ip := device_ip
    uid := a.uid.getD 0
    user_id := pyStrip (a.user_id.getD "")
    name := resolve dict (a.uid.getD 0) (pyStrip (a.user_id.getD ""))
    timestamp := pyStrip (a.timestamp.getD "")
    status := a.status.getD 0
    punch := a.punch.getD 0 }

/-- All batch rows produced by one save_attendance_to_db call, in order. -/
def attRowsOf (dict : Dict) (device_ip : String) (atts : List RawAtt) : List AttRow :=
  (atts.filter attKeep).map (attRowOf dict device_ip)

/-- How many records of the call are tallied as skipped. -/
def attSkipCount (atts : List RawAtt) : Nat :=
  (atts.filter (fun a => !attKeep a)).length

/-- The state threaded through the record loop of save_attendance_to_db.
`chunkIdx` counts the `executemany` calls issued so far; it indexes the
failure oracle and is also the observation that every chunk was attempted. -/
structure AttState where
  db : List AttRow
  batch : List AttRow
  inserted : Nat
  skipped : Nat
  errors : Nat
  chunkIdx : Nat
deriving DecidableEq

/-- One `executemany(INSERT OR IGNORE ...)` call on the pending batch
(lines 116-128 and 136-144).  The connection runs with
`isolation_level = None` (autocommit), so a successful chunk is durable on
its own; a raising chunk (oracle `chunkFails`) is caught, its row count
added to the error tally, and the batch discarded either way. -/
def flushBatch (chunkFails : Nat → Bool) (s : AttState) : AttState :=
  if chunkFails s.chunkIdx then
    { s with errors := s.errors + s.batch.length, batch := [], chunkIdx := s.chunkIdx + 1 }
  else
    { s with db := s.batch.foldl insertOrIgnore s.db,
             inserted := s.inserted + s.batch.length,
             batch := [], chunkIdx := s.chunkIdx + 1 }

/-- The body of the record loop of save_attendance_to_db (lines 83-134). -/
def processAtt (dict : Dict) (device_ip : String) (chunkFails : Nat → Bool)
    (s : AttState) (a : RawAtt) : AttState :=
  if a.user_id.isNone || a.timestamp.isNone then
    { s with skipped := s.skipped + 1 }
  else if pyStrip (a.user_id.getD "") == "" then
    { s with skipped := s.skipped + 1 }
  else
    let s' := { s with batch := s.batch ++ [attRowOf dict device_ip a] }
    if CHUNK_SIZE ≤ s'.batch.length then flushBatch chunkFails s' else s'

/-- The final partial-chunk flush (`if batch:` at line 136). -/
def finalFlush (chunkFails : Nat → Bool) (s : AttState) : AttState :=
  if s.batch = [] then s else flushBatch chunkFails s

/-- save_attendance_to_db (src/zkteco_all.py lines 60-158): early return on
an empty input, then the record loop, then the final partial-chunk flush. -/
def save_attendance_to_db (attendances : List RawAtt) (device_ip : String)
    (users_dict : Dict) (chunkFails : Nat → Bool) (db : List AttRow) : AttState :=
  if attendances = [] then
    { db := db, batch := [], inserted := 0, skipped := 0, errors := 0, chunkIdx := 0 }
  else
    finalFlush chunkFails
      (attendances.foldl (processAtt users_dict device_ip chunkFails)
        { db := db, batch := [], inserted := 0, skipped := 0, errors := 0, chunkIdx := 0 })

/-- Oracle for a run in which no chunk insert raises. -/
def noFail : Nat → Bool := fun _ => false

/-- Oracle for a run in which exactly the chunk with index `j` raises. -/
def failOnly (j : Nat) : Nat → Bool := fun i => i == j

/-! ### Chunk decomposition

The record loop flushes its batch each time it reaches `CHUNK_SIZE` rows and
once more at the end, so the rows it produces are consumed as the consecutive
`CHUNK_SIZE`-sized blocks of `attRowsOf`, the last block possibly shorter.
`chunksOf` computes that block decomposition; it recurses on an explicit fuel
bound so that it stays structurally recursive. -/

/-- Split a list into consecutive `CHUNK_SIZE`-blocks, the last one possibly
shorter; `fuel` bounds the number of blocks. -/
def chunksOfAux {α : Type} : Nat → List α → List (List α)
  | _, [] => []
  | 0, l => [l]
  | fuel + 1, l => l.take CHUNK_SIZE :: chunksOfAux fuel (l.drop CHUNK_SIZE)

/-- The consecutive `CHUNK_SIZE`-blocks of `l` (the list length is always
enough fuel, since every block takes at least one element). -/
def chunksOf {α : Type} (l : List α) : List (List α) :=
  chunksOfAux l.length l

/-- Replay a list of batches through `flushBatch`: this is what the record
loop does to the block decomposition of its rows. -/
def runChunks (chunkFails : Nat → Bool) (s : AttState) : List (List AttRow) → AttState
  | [] => s
  | c :: cs => runChunks chunkFails (flushBatch chunkFails { s with batch := c }) cs

/-- Total number of rows over a list of chunks. -/
def totalLen (cs : List (List AttRow)) : Nat := (cs.map List.length).sum

/-- Per-chunk tallies of a chunk replay starting at chunk index `i`:
(rows of non-failing chunks, rows of failing chunks). -/
def chunkTallies (chunkFails : Nat → Bool) : Nat → List (List AttRow) → Nat × Nat
  | _, [] => (0, 0)
  | i, c :: cs =>
    let t := chunkTallies chunkFails (i + 1) cs
    if chunkFails i then (t.1, t.2 + c.length) else (t.1 + c.length, t.2)

/-! ### Fleet synchronization

The two fleet loops (sync_all_devices_users, lines 341-389, and
sync_all_devices_attendance, lines 392-448) talk to the network, so the
outcome of each device visit is an oracle indexed by the device position:
whether connect/disable succeed, what the fetches return (or that they
raise), whether the sqlite insert raises, and whether enable/disconnect
succeed on the release path. -/

/-- A device descriptor from devices.json: `device.get('ip')` may be absent
(`None`), `device.get('name', 'N/A')` defaults. -/
structure Device where
  ip : Option String
  name : Option String
deriving DecidableEq

/-- The failed-device entry `f"{device_name} ({device_ip})"`. -/
def deviceLabel (d : Device) : String :=
  d.name.getD "N/A" ++ " (" ++ pyStrOf d.ip ++ ")"

/-- The environment's behavior at one device visit of
sync_all_devices_users. -/
structure UserDevBehavior where
  connectOk : Bool
  users : Option (List PyUser)
  saveFails : Bool
  releaseOk : Bool

/-- Run state of sync_all_devices_users.  `released` records the devices for
which `conn.enable_device(); conn.disconnect()` ran to completion; it is an
observation added by the embedding to state the release claims. -/
structure UserFleetState where
  db : List UserRow
  total_users : Nat
  success_count : Nat
  failed_devices : List String
  released : List String
deriving DecidableEq

/-- One iteration of the device loop of sync_all_devices_users (lines
351-378): connect and disable, fetch users, save and count if nonempty,
then enable and disconnect; any exception lands in the `except` arm, which
appends the device label to `failed_devices` and continues. -/
def syncUsersStep (b : UserDevBehavior) (st : UserFleetState) (d : Device) : UserFleetState :=
  if ¬ b.connectOk then
    { st with failed_devices := st.failed_devices ++ [deviceLabel d] }
  else
    match b.users with
    | none => { st with failed_devices := st.failed_devices ++ [deviceLabel d] }
    | some users =>
      let st1 :=
        if users.isEmpty then st
        else
          { st with
            db := (save_users_to_db users (pyStrOf d.ip) b.saveFails st.db).db
            total_users := st.total_users + users.length
            success_count := st.success_count + 1 }
      if b.releaseOk then { st1 with released := st1.released ++ [pyStrOf d.ip] }
      else { st1 with failed_devices := st1.failed_devices ++ [deviceLabel d] }

/-- The device loop of sync_all_devices_users, position-indexed so that the
behavior oracle can distinguish visits. -/
def syncUsersFrom (beh : Nat → UserDevBehavior) : Nat → UserFleetState → List Device → UserFleetState
  | _, st, [] => st
  | i, st, d :: ds => syncUsersFrom beh (i + 1) (syncUsersStep (beh i) st d) ds

/-- sync_all_devices_users (src/zkteco_all.py lines 341-389). -/
def sync_all_devices_users (beh : Nat → UserDevBehavior) (devices : List Device)
    (db : List UserRow) : UserFleetState :=
  syncUsersFrom beh 0
    { db := db, total_users := 0, success_count := 0, failed_devices := [], released := [] }
    devices

/-- The environment's behavior at one device visit of
sync_all_devices_attendance. -/
structure AttDevBehavior where
  connectOk : Bool
  users : Option (List PyUser)
  atts : Option (List RawAtt)
  chunkFails : Nat → Bool
  releaseOk : Bool

/-- Run state of sync_all_devices_attendance; `released` as in
`UserFleetState`. -/
structure AttFleetState where
  db : List AttRow
  total_records : Nat
  success_count : Nat
  failed_devices : List String
  released : List String
deriving DecidableEq

/-- One iteration of the device loop of sync_all_devices_attendance (lines
402-437): connect and disable, fetch users and build the name index, fetch
attendance, save and count if nonempty, then enable and disconnect; any
exception appends the device label to `failed_devices` and continues. -/
def syncAttStep (b : AttDevBehavior) (st : AttFleetState) (d : Device) : AttFleetState :=
  if ¬ b.connectOk then
    { st with failed_devices := st.failed_devices ++ [deviceLabel d] }
  else
    match b.users with
    | none => { st with failed_devices := st.failed_devices ++ [deviceLabel d] }
    | some users =>
      match b.atts with
      | none => { st with failed_devices := st.failed_devices ++ [deviceLabel d] }
      | some atts =>
        let st1 :=
          if atts.isEmpty then st
          else
            { st with
              db := (save_attendance_to_db atts (pyStrOf d.ip) (buildUsersDict users)
                b.chunkFails st.db).db
              total_records := st.total_records + atts.length
              success_count := st.success_count + 1 }
        if b.releaseOk then { st1 with released := st1.released ++ [pyStrOf d.ip] }
        else { st1 with failed_devices := st1.failed_devices ++ [deviceLabel d] }

/-- The device loop of sync_all_devices_attendance, position-indexed. -/
def syncAttFrom (beh : Nat → AttDevBehavior) : Nat → AttFleetState → List Device → AttFleetState
  | _, st, [] => st
  | i, st, d :: ds => syncAttFrom beh (i + 1) (syncAttStep (beh i) st d) ds

/-- sync_all_devices_attendance (src/zkteco_all.py lines 392-448). -/
def sync_all_devices_attendance (beh : Nat → AttDevBehavior) (devices : List Device)
    (db : List AttRow) : AttFleetState :=
  syncAttFrom beh 0
    { db := db, total_records := 0, success_count := 0, failed_devices := [], released := [] }
    devices

/-! Spec-side fleet report predicates. -/

/-- A users visit counts as a success (lines 366-369): connect and fetch
succeed and the fetched list is nonempty. -/
def userDevSucceeds (b : UserDevBehavior) : Bool :=
  b.connectOk && (match b.users with | some us => !us.isEmpty | none => false)

/-- A users visit lands in `failed_devices`: connect or fetch raise, or the
release actions raise. -/
def userDevFails (b : UserDevBehavior) : Bool :=
  !b.connectOk || b.users.isNone || !b.releaseOk

/-- A users visit completes enable and disconnect. -/
def userDevReleases (b : UserDevBehavior) : Bool :=
  b.connectOk && b.users.isSome && b.releaseOk

/-- Users contributed to `total_users` by one visit. -/
def userDevCount (b : UserDevBehavior) : Nat :=
  if b.connectOk then (match b.users with | some us => us.length | none => 0) else 0

/-- An attendance visit counts as a success: connect and both fetches
succeed and the attendance list is nonempty. -/
def attDevSucceeds (b : AttDevBehavior) : Bool :=
  b.connectOk && b.users.isSome &&
    (match b.atts with | some l => !l.isEmpty | none => false)

/-- An attendance visit lands in `failed_devices`. -/
def attDevFails (b : AttDevBehavior) : Bool :=
  !b.connectOk || b.users.isNone || b.atts.isNone || !b.releaseOk

/-- An attendance visit completes enable and disconnect. -/
def attDevReleases (b : AttDevBehavior) : Bool :=
  b.connectOk && b.users.isSome && b.atts.isSome && b.releaseOk

/-- Records contributed to `total_records` by one visit. -/
def attDevCount (b : AttDevBehavior) : Nat :=
  if b.connectOk && b.users.isSome then
    (match b.atts with | some l => l.length | none => 0)
  else 0

/-- Count over a device list, positions starting at `i`. -/
def fleetCount {β : Type} (beh : Nat → β) (f : β → Nat) : Nat → List Device → Nat
  | _, [] => 0
  | i, _ :: ds => f (beh i) + fleetCount beh f (i + 1) ds

/-- Collect the labels of devices whose visit satisfies `p`, positions
starting at `i`. -/
def fleetCollect {β : Type} (beh : Nat → β) (p : β → Bool) (lab : Device → String) :
    Nat → List Device → List String
  | _, [] => []
  | i, d :: ds =>
    (if p (beh i) then [lab d] else []) ++ fleetCollect beh p lab (i + 1) ds

/-! ### Live capture -/

/-- Status rendering of live_capture_interactive (lines 614, 653):
`status_map.get(status_code, str(status_code)) if status_code is not None
else ''`. -/
def statusLabel (o : Option Int) : String :=
  match o with
  | none => ""
  | some c =>
    match c with
    | 0 => "Check-In"
    | 1 => "Check-Out"
    | 2 => "Break-Out"
    | 3 => "Break-In"
    | 4 => "OT-In"
    | 5 => "OT-Out"
    | c' => toString c'

/-- Whether one non-blocking poll of stdin yields a quit request
(lines 627-640): a pending character that lowercases to 'q'. -/
def isQuit (o : Option Char) : Bool :=
  match o with
  | some c => c.toLower == 'q'
  | none => false

/-- The display row of one captured live event (lines 649-657). -/
def liveRow (d : Dict) (counter : Nat) (a : RawAtt) : List String :=
  [toString counter, optIntStr a.uid, a.user_id.getD "",
   resolveStr d (optIntStr a.uid) (a.user_id.getD ""),
   a.timestamp.getD "", statusLabel a.status]

/-- The stream loop of live_capture_interactive (lines 625-671): each
iteration first polls stdin (index `i` of the `inputs` oracle) and breaks on
a pending 'q'; a `None` element (device read timeout) is skipped without
counting; a real event bumps both counters and is enriched and displayed.
Returns the final `captured_events` count and the displayed rows. -/
def liveLoop (d : Dict) (inputs : Nat → Option Char) :
    Nat → Nat → Nat → List (List String) → List (Option RawAtt) → Nat × List (List String)
  | _, _, captured, rows, [] => (captured, rows)
  | i, counter, captured, rows, e :: rest =>
    if isQuit (inputs i) then (captured, rows)
    else
      match e with
      | none => liveLoop d inputs (i + 1) counter captured rows rest
      | some att =>
        liveLoop d inputs (i + 1) (counter + 1) (captured + 1)
          (rows ++ [liveRow d (counter + 1) att]) rest

/-- live_capture_interactive (src/zkteco_all.py lines 600-681), applied to
the finite prefix of the stream produced during the run. -/
def live_capture_interactive (users : List PyUser) (inputs : Nat → Option Char)
    (stream : List (Option RawAtt)) : Nat × List (List String) :=
  liveLoop (buildUsersDict users) inputs 0 0 0 [] stream

/-! ### Lemmas about `INSERT OR IGNORE` -/

theorem insertOrIgnore_of_mem {db : List AttRow} {r : AttRow}
    (h : attKey r ∈ db.map attKey) : insertOrIgnore db r = db :=
  if_pos h

theorem mem_keys_insertOrIgnore (db : List AttRow) (r : AttRow)
    {k : String × String × String} (h : k ∈ db.map attKey) :
    k ∈ (insertOrIgnore db r).map attKey := by
  unfold insertOrIgnore
  split
  · exact h
  · simp only [List.map_append, List.mem_append]
    exact Or.inl h

theorem self_mem_keys_insertOrIgnore (db : List AttRow) (r : AttRow) :
    attKey r ∈ (insertOrIgnore db r).map attKey := by
  unfold insertOrIgnore
  split
  · assumption
  · simp

theorem mem_keys_foldl_insertOrIgnore (rows : List AttRow) {db : List AttRow}
    {k : String × String × String} (h : k ∈ db.map attKey) :
    k ∈ (rows.foldl insertOrIgnore db).map attKey := by
  induction rows generalizing db with
  | nil => exact h
  | cons r rows ih => exact ih (mem_keys_insertOrIgnore db r h)

theorem keys_foldl_insertOrIgnore_of_mem {rows : List AttRow} (db : List AttRow)
    {r : AttRow} (hr : r ∈ rows) :
    attKey r ∈ (rows.foldl insertOrIgnore db).map attKey := by
  induction rows generalizing db with
  | nil => cases hr
  | cons a rows ih =>
    rcases List.mem_cons.mp hr with h | h
    · subst h
      exact mem_keys_foldl_insertOrIgnore rows (self_mem_keys_insertOrIgnore db r)
    · exact ih _ h

theorem foldl_insertOrIgnore_of_keys {rows : List AttRow} {db : List AttRow}
    (h : ∀ r ∈ rows, attKey r ∈ db.map attKey) :
    rows.foldl insertOrIgnore db = db := by
  induction rows with
  | nil => rfl
  | cons r rows ih =>
    have h1 : insertOrIgnore db r = db := insertOrIgnore_of_mem (h r (List.mem_cons_self r rows))
    simp only [List.foldl_cons, h1]
    exact ih (fun q hq => h q (List.mem_cons_of_mem r hq))

/-- Re-inserting the same rows with `INSERT OR IGNORE` changes nothing:
every key is already present after the first pass. -/
theorem foldl_insertOrIgnore_idem (rows : List AttRow) (db : List AttRow) :
    rows.foldl insertOrIgnore (rows.foldl insertOrIgnore db) = rows.foldl insertOrIgnore db :=
  foldl_insertOrIgnore_of_keys (fun _ hr => keys_foldl_insertOrIgnore_of_mem db hr)

/-! ### Lemmas about the chunk decomposition -/

theorem chunksOfAux_nil {α : Type} (fuel : Nat) : chunksOfAux fuel ([] : List α) = [] := by
  cases fuel <;> rfl

theorem chunksOfAux_congr {α : Type} :
    ∀ (f1 f2 : Nat) (l : List α), l.length ≤ f1 → l.length ≤ f2 →
      chunksOfAux f1 l = chunksOfAux f2 l := by
  intro f1
  induction f1 with
  | zero =>
    intro f2 l h1 _
    have : l = [] := List.eq_nil_of_length_eq_zero (Nat.le_zero.mp h1)
    subst this
    rw [chunksOfAux_nil, chunksOfAux_nil]
  | succ f1 ih =>
    intro f2 l h1 h2
    cases l with
    | nil => rw [chunksOfAux_nil, chunksOfAux_nil]
    | cons a as =>
      cases f2 with
      | zero => simp at h2
      | succ f2 =>
        show (a :: as).take CHUNK_SIZE :: chunksOfAux f1 ((a :: as).drop CHUNK_SIZE) =
          (a :: as).take CHUNK_SIZE :: chunksOfAux f2 ((a :: as).drop CHUNK_SIZE)
        congr 1
        apply ih
        · simp only [List.length_drop, List.length_cons, CHUNK_SIZE]
          simp only [List.length_cons] at h1
          omega
        · simp only [List.length_drop, List.length_cons, CHUNK_SIZE]
          simp only [List.length_cons] at h2
          omega

theorem chunksOf_nil {α : Type} : chunksOf ([] : List α) = [] := rfl

theorem chunksOf_small {α : Type} {l : List α} (h0 : l ≠ [])
    (h : l.length ≤ CHUNK_SIZE) : chunksOf l = [l] := by
  cases l with
  | nil => exact absurd rfl h0
  | cons a as =>
    show (a :: as).take CHUNK_SIZE :: chunksOfAux as.length ((a :: as).drop CHUNK_SIZE) = [a :: as]
    rw [List.take_of_length_le h, List.drop_eq_nil_of_le h, chunksOfAux_nil]

theorem chunksOf_step {α : Type} (l rest : List α) (h : l.length = CHUNK_SIZE) :
    chunksOf (l ++ rest) = l :: chunksOf rest := by
  cases l with
  | nil => simp [CHUNK_SIZE] at h
  | cons a as =>
    show chunksOfAux ((a :: as) ++ rest).length ((a :: as) ++ rest) = _
    have hlen : ((a :: as) ++ rest).length = (as ++ rest).length + 1 := by
      simp [Nat.add_comm, Nat.add_assoc, Nat.add_left_comm]
    rw [hlen]
    show ((a :: as) ++ rest).take CHUNK_SIZE :: chunksOfAux (as ++ rest).length
        (((a :: as) ++ rest).drop CHUNK_SIZE) = _
    rw [← h, List.take_left, List.drop_left]
    congr 1
    apply chunksOfAux_congr
    · simp
    · exact Nat.le_refl _

theorem chunksOfAux_flatten {α : Type} :
    ∀ (fuel : Nat) (l : List α), l.length ≤ fuel → (chunksOfAux fuel l).flatten = l := by
  intro fuel
  induction fuel with
  | zero =>
    intro l h
    have : l = [] := List.eq_nil_of_length_eq_zero (Nat.le_zero.mp h)
    subst this
    rw [chunksOfAux_nil]
    rfl
  | succ fuel ih =>
    intro l h
    cases l with
    | nil => rw [chunksOfAux_nil]; rfl
    | cons a as =>
      show (((a :: as).take CHUNK_SIZE :: chunksOfAux fuel ((a :: as).drop CHUNK_SIZE)).flatten) = _
      rw [List.flatten_cons,
        ih _ (by simp only [List.length_drop, List.length_cons, CHUNK_SIZE]
                 simp only [List.length_cons] at h
                 omega),
        List.take_append_drop]

/-- The chunk decomposition loses and reorders nothing. -/
theorem chunksOf_flatten {α : Type} (l : List α) : (chunksOf l).flatten = l :=
  chunksOfAux_flatten l.length l (Nat.le_refl _)

/-! ### Characterization of save_attendance_to_db -/

theorem flushBatch_skipped (f : Nat → Bool) (s : AttState) :
    (flushBatch f s).skipped = s.skipped := by
  unfold flushBatch
  split <;> rfl

theorem flushBatch_set_skipped (f : Nat → Bool) (s : AttState) (n : Nat) :
    flushBatch f { s with skipped := n } = { flushBatch f s with skipped := n } := by
  cases s
  unfold flushBatch
  dsimp only
  split <;> rfl

theorem runChunks_set_skipped (f : Nat → Bool) (cs : List (List AttRow)) :
    ∀ (s : AttState) (n : Nat),
      runChunks f { s with skipped := n } cs = { runChunks f s cs with skipped := n } := by
  induction cs with
  | nil => intro s n; rfl
  | cons c cs ih =>
    intro s n
    have h1 : { { s with skipped := n } with batch := c } =
        { { s with batch := c } with skipped := n } := by cases s; rfl
    simp only [runChunks]
    rw [h1, flushBatch_set_skipped, ih]

theorem attRowsOf_cons_keep {a : RawAtt} (dict : Dict) (ip : String) (l : List RawAtt)
    (h : attKeep a = true) :
    attRowsOf dict ip (a :: l) = attRowOf dict ip a :: attRowsOf dict ip l := by
  simp [attRowsOf, List.filter_cons, h]

theorem attRowsOf_cons_skip {a : RawAtt} (dict : Dict) (ip : String) (l : List RawAtt)
    (h : attKeep a = false) :
    attRowsOf dict ip (a :: l) = attRowsOf dict ip l := by
  simp [attRowsOf, List.filter_cons, h]

theorem attSkipCount_cons_keep {a : RawAtt} (l : List RawAtt) (h : attKeep a = true) :
    attSkipCount (a :: l) = attSkipCount l := by
  simp [attSkipCount, List.filter_cons, h]

theorem attSkipCount_cons_skip {a : RawAtt} (l : List RawAtt) (h : attKeep a = false) :
    attSkipCount (a :: l) = attSkipCount l + 1 := by
  simp [attSkipCount, List.filter_cons, h]

theorem attKeep_false_cases {a : RawAtt} (h : attKeep a = false) :
    (a.user_id.isNone || a.timestamp.isNone) = true ∨
      ((a.user_id.isNone || a.timestamp.isNone) = false ∧
        (pyStrip (a.user_id.getD "") == "") = true) := by
  cases hu : a.user_id <;> cases ht : a.timestamp <;> simp_all [attKeep]

theorem attKeep_true_cases {a : RawAtt} (h : attKeep a = true) :
    (a.user_id.isNone || a.timestamp.isNone) = false ∧
      (pyStrip (a.user_id.getD "") == "") = false := by
  cases hu : a.user_id <;> cases ht : a.timestamp <;> simp_all [attKeep]

theorem processAtt_skip (dict : Dict) (ip : String) (f : Nat → Bool) (s : AttState)
    {a : RawAtt} (h : attKeep a = false) :
    processAtt dict ip f s a = { s with skipped := s.skipped + 1 } := by
  unfold processAtt
  rcases attKeep_false_cases h with h1 | ⟨h1, h2⟩
  · rw [if_pos h1]
  · rw [if_neg (by simp [h1]), if_pos h2]

theorem processAtt_keep (dict : Dict) (ip : String) (f : Nat → Bool) (s : AttState)
    {a : RawAtt} (h : attKeep a = true) :
    processAtt dict ip f s a =
      (if CHUNK_SIZE ≤ s.batch.length + 1 then
        flushBatch f { s with batch := s.batch ++ [attRowOf dict ip a] }
      else { s with batch := s.batch ++ [attRowOf dict ip a] }) := by
  obtain ⟨h1, h2⟩ := attKeep_true_cases h
  unfold processAtt
  rw [if_neg (by simp [h1]), if_neg (by simp [h2])]
  simp

theorem AttState.ext' {s t : AttState} (h1 : s.db = t.db) (h2 : s.batch = t.batch)
    (h3 : s.inserted = t.inserted) (h4 : s.skipped = t.skipped)
    (h5 : s.errors = t.errors) (h6 : s.chunkIdx = t.chunkIdx) : s = t := by
  cases s; cases t; simp_all

theorem flushBatch_db (f : Nat → Bool) (s : AttState) :
    (flushBatch f s).db = if f s.chunkIdx then s.db else s.batch.foldl insertOrIgnore s.db := by
  unfold flushBatch; split <;> simp_all

theorem flushBatch_batch (f : Nat → Bool) (s : AttState) : (flushBatch f s).batch = [] := by
  unfold flushBatch; split <;> rfl

theorem flushBatch_inserted (f : Nat → Bool) (s : AttState) :
    (flushBatch f s).inserted =
      if f s.chunkIdx then s.inserted else s.inserted + s.batch.length := by
  unfold flushBatch; split <;> simp_all

theorem flushBatch_errors (f : Nat → Bool) (s : AttState) :
    (flushBatch f s).errors =
      if f s.chunkIdx then s.errors + s.batch.length else s.errors := by
  unfold flushBatch; split <;> simp_all

theorem flushBatch_chunkIdx (f : Nat → Bool) (s : AttState) :
    (flushBatch f s).chunkIdx = s.chunkIdx + 1 := by
  unfold flushBatch; split <;> rfl

theorem runChunks_congr {f : Nat → Bool} {s1 s2 : AttState} {cs1 cs2 : List (List AttRow)}
    (hs : s1 = s2) (hc : cs1 = cs2) : runChunks f s1 cs1 = runChunks f s2 cs2 := by
  rw [hs, hc]

theorem attRowsOf_nil (dict : Dict) (ip : String) : attRowsOf dict ip [] = [] := rfl

theorem attSkipCount_nil : attSkipCount [] = 0 := rfl

/-- The record loop with the final flush is exactly a replay of the chunk
decomposition of the rows it builds, with the skip tally accumulated on the
side. -/
theorem foldl_processAtt_spec (dict : Dict) (ip : String) (f : Nat → Bool) :
    ∀ (atts : List RawAtt) (s : AttState), s.batch.length < CHUNK_SIZE →
      finalFlush f (atts.foldl (processAtt dict ip f) s) =
        runChunks f { s with batch := [], skipped := s.skipped + attSkipCount atts }
          (chunksOf (s.batch ++ attRowsOf dict ip atts)) := by
  intro atts
  induction atts with
  | nil =>
    intro s hs
    rw [List.foldl_nil, attRowsOf_nil, attSkipCount_nil, List.append_nil]
    by_cases hb : s.batch = []
    · rw [hb, chunksOf_nil]
      simp only [runChunks]
      unfold finalFlush
      rw [if_pos hb]
      apply AttState.ext' <;> simp [hb]
    · rw [chunksOf_small hb (Nat.le_of_lt hs)]
      simp only [runChunks]
      unfold finalFlush
      rw [if_neg hb]
      apply AttState.ext' <;>
        simp [flushBatch_db, flushBatch_batch, flushBatch_inserted, flushBatch_errors,
          flushBatch_chunkIdx, flushBatch_skipped]
  | cons a rest ih =>
    intro s hs
    rw [List.foldl_cons]
    by_cases hk : attKeep a = true
    · rw [processAtt_keep dict ip f s hk, attRowsOf_cons_keep dict ip rest hk,
        attSkipCount_cons_keep rest hk]
      by_cases hfull : CHUNK_SIZE ≤ s.batch.length + 1
      · rw [if_pos hfull]
        have hlen : (s.batch ++ [attRowOf dict ip a]).length = CHUNK_SIZE := by
          simp only [List.length_append, List.length_cons, List.length_nil]
          omega
        have hb2 : (flushBatch f { s with batch := s.batch ++ [attRowOf dict ip a] }).batch.length
            < CHUNK_SIZE := by
          rw [flushBatch_batch]
          simp [CHUNK_SIZE]
        refine (ih _ hb2).trans ?_
        rw [flushBatch_batch, List.nil_append]
        have hsplit : s.batch ++ attRowOf dict ip a :: attRowsOf dict ip rest =
            (s.batch ++ [attRowOf dict ip a]) ++ attRowsOf dict ip rest := by simp
        rw [hsplit, chunksOf_step _ _ hlen]
        simp only [runChunks]
        refine runChunks_congr ?_ rfl
        apply AttState.ext' <;>
          simp [flushBatch_db, flushBatch_batch, flushBatch_inserted, flushBatch_errors,
            flushBatch_chunkIdx, flushBatch_skipped]
      · rw [if_neg hfull]
        have hlt : ({ s with batch := s.batch ++ [attRowOf dict ip a] } : AttState).batch.length
            < CHUNK_SIZE := by
          simp only [List.length_append, List.length_cons, List.length_nil]
          omega
        refine (ih _ hlt).trans ?_
        refine runChunks_congr ?_ ?_
        · apply AttState.ext' <;> simp
        · simp
    · have hk' : attKeep a = false := by simpa using hk
      rw [processAtt_skip dict ip f s hk', attRowsOf_cons_skip dict ip rest hk',
        attSkipCount_cons_skip rest hk']
      have hlt : ({ s with skipped := s.skipped + 1 } : AttState).batch.length < CHUNK_SIZE := by
        simpa using hs
      refine (ih _ hlt).trans ?_
      refine runChunks_congr ?_ ?_
      · apply AttState.ext' <;> simp
        omega
      · simp

/-- save_attendance_to_db is the chunk replay of its row list, starting from
the given table with zeroed tallies except the skip count. -/
theorem save_attendance_spec (atts : List RawAtt) (ip : String) (dict : Dict)
    (f : Nat → Bool) (db : List AttRow) :
    save_attendance_to_db atts ip dict f db =
      runChunks f
        { db := db, batch := [], inserted := 0, skipped := attSkipCount atts,
          errors := 0, chunkIdx := 0 }
        (chunksOf (attRowsOf dict ip atts)) := by
  unfold save_attendance_to_db
  split
  · rename_i h
    subst h
    rw [attRowsOf_nil, chunksOf_nil]
    rfl
  · have h := foldl_processAtt_spec dict ip f atts
      { db := db, batch := [], inserted := 0, skipped := 0, errors := 0, chunkIdx := 0 }
      (by simp [CHUNK_SIZE])
    rw [h]
    refine runChunks_congr ?_ ?_
    · apply AttState.ext' <;> simp
    · simp

/-! ### Chunk replay tallies -/

theorem runChunks_tallies (f : Nat → Bool) :
    ∀ (cs : List (List AttRow)) (s : AttState), s.batch = [] →
      (runChunks f s cs).inserted = s.inserted + (chunkTallies f s.chunkIdx cs).1 ∧
      (runChunks f s cs).errors = s.errors + (chunkTallies f s.chunkIdx cs).2 ∧
      (runChunks f s cs).chunkIdx = s.chunkIdx + cs.length ∧
      (runChunks f s cs).skipped = s.skipped ∧
      (runChunks f s cs).batch = [] := by
  intro cs
  induction cs with
  | nil =>
    intro s hb
    refine ⟨by simp [runChunks, chunkTallies], by simp [runChunks, chunkTallies],
      by simp [runChunks], by simp [runChunks], by simp [runChunks, hb]⟩
  | cons c cs ih =>
    intro s hb
    simp only [runChunks]
    have hb2 : (flushBatch f { s with batch := c }).batch = [] := flushBatch_batch f _
    obtain ⟨h1, h2, h3, h4, h5⟩ := ih (flushBatch f { s with batch := c }) hb2
    rw [h1, h2, h3, h4]
    rw [flushBatch_inserted, flushBatch_errors, flushBatch_chunkIdx, flushBatch_skipped]
    simp only [chunkTallies, List.length_cons]
    by_cases hf : f s.chunkIdx <;> (simp [hf, h5]; try omega)

theorem runChunks_noFail_db :
    ∀ (cs : List (List AttRow)) (s : AttState),
      (runChunks noFail s cs).db = cs.foldl (fun d c => c.foldl insertOrIgnore d) s.db := by
  intro cs
  induction cs with
  | nil => intro s; rfl
  | cons c cs ih =>
    intro s
    simp only [runChunks, List.foldl_cons]
    rw [ih]
    have hdb : (flushBatch noFail { s with batch := c }).db = c.foldl insertOrIgnore s.db := by
      rw [flushBatch_db]
      simp [noFail]
    rw [hdb]

theorem foldl_chunks_flatten :
    ∀ (cs : List (List AttRow)) (db : List AttRow),
      cs.foldl (fun d c => c.foldl insertOrIgnore d) db = cs.flatten.foldl insertOrIgnore db := by
  intro cs
  induction cs with
  | nil => intro db; rfl
  | cons c cs ih =>
    intro db
    simp only [List.foldl_cons, List.flatten_cons, List.foldl_append]
    exact ih _

theorem chunkTallies_noFail : ∀ (cs : List (List AttRow)) (i : Nat),
    chunkTallies noFail i cs = (totalLen cs, 0) := by
  intro cs
  induction cs with
  | nil => intro i; rfl
  | cons c cs ih =>
    intro i
    simp only [chunkTallies, noFail, ih, totalLen, List.map_cons, List.sum_cons]
    simp [Nat.add_comm]

theorem chunkTallies_shift (f : Nat → Bool) :
    ∀ (cs : List (List AttRow)) (i : Nat),
      chunkTallies f (i + 1) cs = chunkTallies (fun n => f (n + 1)) i cs := by
  intro cs
  induction cs with
  | nil => intro i; rfl
  | cons c cs ih =>
    intro i
    simp only [chunkTallies]
    rw [ih]

theorem failOnly_shift (j : Nat) : (fun n => failOnly (j + 1) (n + 1)) = failOnly j := by
  funext n
  simp only [failOnly]
  rw [Bool.eq_iff_iff]
  simp

theorem failOnly_zero_shift : (fun n => failOnly 0 (n + 1)) = noFail := by
  funext n
  simp [failOnly, noFail]

theorem getD_length_le_totalLen :
    ∀ (cs : List (List AttRow)) (j : Nat), j < cs.length →
      (cs.getD j []).length ≤ totalLen cs := by
  intro cs
  induction cs with
  | nil => intro j h; simp at h
  | cons c cs ih =>
    intro j h
    cases j with
    | zero => simp [totalLen]
    | succ j =>
      have hrec := ih j (by simpa using h)
      simp only [List.getD_cons_succ]
      calc (cs.getD j []).length ≤ totalLen cs := hrec
        _ ≤ totalLen (c :: cs) := by simp [totalLen]

theorem chunkTallies_failOnly :
    ∀ (cs : List (List AttRow)) (j : Nat), j < cs.length →
      chunkTallies (failOnly j) 0 cs =
        (totalLen cs - (cs.getD j []).length, (cs.getD j []).length) := by
  intro cs
  induction cs with
  | nil => intro j h; simp at h
  | cons c cs ih =>
    intro j h
    cases j with
    | zero =>
      simp only [chunkTallies]
      rw [chunkTallies_shift, failOnly_zero_shift, chunkTallies_noFail]
      have hcond : failOnly 0 0 = true := rfl
      rw [hcond]
      simp only [if_true, List.getD_cons_zero, totalLen, List.map_cons, List.sum_cons,
        Prod.mk.injEq]
      omega
    | succ j =>
      have hj : j < cs.length := by simpa using h
      have hle := getD_length_le_totalLen cs j hj
      have ht : totalLen (c :: cs) = c.length + totalLen cs := by simp [totalLen]
      simp only [chunkTallies]
      rw [chunkTallies_shift, failOnly_shift, ih j hj]
      have hcond : failOnly (j + 1) 0 = false := by simp [failOnly]
      rw [hcond]
      simp only [Bool.false_eq_true, if_false, List.getD_cons_succ, Prod.mk.injEq]
      refine ⟨?_, trivial⟩
      omega

theorem totalLen_chunksOf (l : List AttRow) : totalLen (chunksOf l) = l.length := by
  rw [totalLen, ← List.length_flatten, chunksOf_flatten]

/-- Summary of a save_attendance_to_db run in which no chunk insert raises. -/
theorem save_attendance_noFail (atts : List RawAtt) (ip : String) (dict : Dict)
    (db : List AttRow) :
    (save_attendance_to_db atts ip dict noFail db).db =
        (attRowsOf dict ip atts).foldl insertOrIgnore db ∧
      (save_attendance_to_db atts ip dict noFail db).inserted =
        (attRowsOf dict ip atts).length ∧
      (save_attendance_to_db atts ip dict noFail db).skipped = attSkipCount atts ∧
      (save_attendance_to_db atts ip dict noFail db).errors = 0 := by
  rw [save_attendance_spec]
  obtain ⟨h1, h2, _, h4, _⟩ := runChunks_tallies noFail (chunksOf (attRowsOf dict ip atts))
    { db := db, batch := [], inserted := 0, skipped := attSkipCount atts,
      errors := 0, chunkIdx := 0 } rfl
  refine ⟨?_, ?_, ?_, ?_⟩
  · rw [runChunks_noFail_db, foldl_chunks_flatten, chunksOf_flatten]
  · rw [h1, chunkTallies_noFail, totalLen_chunksOf]
    simp
  · rw [h4]
  · rw [h2, chunkTallies_noFail]
    simp

/-- C1: ingesting an identical attendance batch twice with
save_attendance_to_db leaves the same persisted attendance table - hence the
same set of rows and the same persisted row count - as ingesting it once:
every row of the second pass finds its (device_ip, user_id, timestamp) key
already present and is ignored by the store, and the second pass tallies
exactly the same skips as the first and no errors. -/
theorem C1_attendance_ingest_idempotent (atts : List RawAtt) (device_ip : String)
    (users_dict : Dict) (db : List AttRow) :
    (save_attendance_to_db atts device_ip users_dict noFail
        (save_attendance_to_db atts device_ip users_dict noFail db).db).db =
      (save_attendance_to_db atts device_ip users_dict noFail db).db ∧
    (save_attendance_to_db atts device_ip users_dict noFail
        (save_attendance_to_db atts device_ip users_dict noFail db).db).skipped =
      (save_attendance_to_db atts device_ip users_dict noFail db).skipped ∧
    (save_attendance_to_db atts device_ip users_dict noFail
        (save_attendance_to_db atts device_ip users_dict noFail db).db).errors = 0 ∧
    (save_attendance_to_db atts device_ip users_dict noFail db).errors = 0 := by
  obtain ⟨hdb1, _, hsk1, he1⟩ := save_attendance_noFail atts device_ip users_dict db
  obtain ⟨hdb2, _, hsk2, he2⟩ := save_attendance_noFail atts device_ip users_dict
    (save_attendance_to_db atts device_ip users_dict noFail db).db
  refine ⟨?_, ?_, he2, he1⟩
  · rw [hdb2, hdb1]
    exact foldl_insertOrIgnore_idem _ _
  · rw [hsk1, hsk2]

/-- Every row that save_attendance_to_db hands to the store has a nonempty
user_id. -/
theorem attRowsOf_user_id_ne (dict : Dict) (ip : String) (atts : List RawAtt) :
    (attRowsOf dict ip atts).all (fun r => !(r.user_id == "")) = true := by
  rw [List.all_eq_true]
  intro r hr
  unfold attRowsOf at hr
  obtain ⟨a, ha, rfl⟩ := List.mem_map.mp hr
  have hk := (List.mem_filter.mp ha).2
  obtain ⟨-, h2⟩ := attKeep_true_cases hk
  simp [attRowOf, h2]

/-- C4 counterexample: a raw attendance record whose user_id is present and
nonempty but whose timestamp attribute is missing does not proceed to
coercion and batching; it is tallied as a skip and nothing is persisted. -/
theorem C4_counterexample :
    (save_attendance_to_db
        [{ user_id := some "7", timestamp := none, uid := some 1, status := some 0,
           punch := some 0 }] "1.2.3.4" [] noFail []).skipped = 1 ∧
      (save_attendance_to_db
        [{ user_id := some "7", timestamp := none, uid := some 1, status := some 0,
           punch := some 0 }] "1.2.3.4" [] noFail []).inserted = 0 ∧
      (save_attendance_to_db
        [{ user_id := some "7", timestamp := none, uid := some 1, status := some 0,
           punch := some 0 }] "1.2.3.4" [] noFail []).db = [] ∧
      attRowsOf [] "1.2.3.4"
        [{ user_id := some "7", timestamp := none, uid := some 1, status := some 0,
           punch := some 0 }] = [] := by
  decide

/-- C4 (amended): a raw attendance record whose user_id or timestamp
attribute is missing, or whose user_id is empty after trimming, is never
persisted and is counted exactly once in the skip tally and never in the
error tally; all records that have both attributes and a nonempty trimmed
user_id proceed to coercion and batching, and every batched row carries a
nonempty user_id. -/
theorem C4_skip_law (atts : List RawAtt) (ip : String) (dict : Dict) (db : List AttRow) :
    (save_attendance_to_db atts ip dict noFail db).skipped = attSkipCount atts ∧
      (save_attendance_to_db atts ip dict noFail db).errors = 0 ∧
      (save_attendance_to_db atts ip dict noFail db).db =
        (attRowsOf dict ip atts).foldl insertOrIgnore db ∧
      (save_attendance_to_db atts ip dict noFail db).inserted =
        (attRowsOf dict ip atts).length ∧
      (attRowsOf dict ip atts).all (fun r => !(r.user_id == "")) = true := by
  obtain ⟨h1, h2, h3, h4⟩ := save_attendance_noFail atts ip dict db
  exact ⟨h3, h4, h1, h2, attRowsOf_user_id_ne dict ip atts⟩

/-- C6: when exactly the chunk with index j raises during
save_attendance_to_db, the error tally is exactly that chunk's row count,
the inserted tally still covers every other chunk (those committed before
the failure and those attempted after it), every chunk is still attempted
(the number of executed chunk inserts equals the number of chunks), and the
skip tally is unchanged. -/
theorem C6_chunk_fault_containment (atts : List RawAtt) (ip : String) (dict : Dict)
    (db : List AttRow) (j : Nat)
    (hj : j < (chunksOf (attRowsOf dict ip atts)).length) :
    (save_attendance_to_db atts ip dict (failOnly j) db).errors =
        ((chunksOf (attRowsOf dict ip atts)).getD j []).length ∧
      (save_attendance_to_db atts ip dict (failOnly j) db).inserted +
          ((chunksOf (attRowsOf dict ip atts)).getD j []).length =
        (save_attendance_to_db atts ip dict noFail db).inserted ∧
      (save_attendance_to_db atts ip dict (failOnly j) db).chunkIdx =
        (chunksOf (attRowsOf dict ip atts)).length ∧
      (save_attendance_to_db atts ip dict (failOnly j) db).skipped =
        (save_attendance_to_db atts ip dict noFail db).skipped := by
  obtain ⟨-, hins, hskip, -⟩ := save_attendance_noFail atts ip dict db
  rw [save_attendance_spec atts ip dict (failOnly j) db]
  obtain ⟨h1, h2, h3, h4, -⟩ := runChunks_tallies (failOnly j)
    (chunksOf (attRowsOf dict ip atts))
    { db := db, batch := [], inserted := 0, skipped := attSkipCount atts,
      errors := 0, chunkIdx := 0 } rfl
  rw [chunkTallies_failOnly _ j hj] at h1 h2
  simp only [Nat.zero_add] at h1 h2 h3
  have hle := getD_length_le_totalLen (chunksOf (attRowsOf dict ip atts)) j hj
  refine ⟨?_, ?_, ?_, ?_⟩
  · rw [h2]
  · rw [h1, hins, ← totalLen_chunksOf (attRowsOf dict ip atts)]
    omega
  · rw [h3]
  · rw [h4, hskip]

/-- A concrete one-record run used by the witnesses. -/
def sampleAtt : RawAtt :=
  { user_id := some "7", timestamp := some "2024-01-02 08:00:00", uid := some 1,
    status := some 0, punch := some 0 }

/-- Witness for C6: the one-chunk run with its only chunk failing. -/
theorem C6_chunk_fault_containment_witness :
    (0 < (chunksOf (attRowsOf [] "1.2.3.4" [sampleAtt])).length) ∧
      ((save_attendance_to_db [sampleAtt] "1.2.3.4" [] (failOnly 0) []).errors =
          ((chunksOf (attRowsOf [] "1.2.3.4" [sampleAtt])).getD 0 []).length ∧
        (save_attendance_to_db [sampleAtt] "1.2.3.4" [] (failOnly 0) []).inserted +
            ((chunksOf (attRowsOf [] "1.2.3.4" [sampleAtt])).getD 0 []).length =
          (save_attendance_to_db [sampleAtt] "1.2.3.4" [] noFail []).inserted ∧
        (save_attendance_to_db [sampleAtt] "1.2.3.4" [] (failOnly 0) []).chunkIdx =
          (chunksOf (attRowsOf [] "1.2.3.4" [sampleAtt])).length ∧
        (save_attendance_to_db [sampleAtt] "1.2.3.4" [] (failOnly 0) []).skipped =
          (save_attendance_to_db [sampleAtt] "1.2.3.4" [] noFail []).skipped) :=
  ⟨by decide, C6_chunk_fault_containment [sampleAtt] "1.2.3.4" [] [] 0 (by decide)⟩

/-! ### Lemmas about `INSERT OR REPLACE` -/

theorem foldl_insertOrReplace_filter (k : String × Int) :
    ∀ (rows : List UserRow) (db : List UserRow),
      (rows.foldl insertOrReplace db).filter (fun r => decide (userKey r = k)) =
        (match (rows.filter (fun r => decide (userKey r = k))).getLast? with
         | some r => [r]
         | none => db.filter (fun r => decide (userKey r = k))) := by
  intro rows
  induction rows with
  | nil => intro db; rfl
  | cons r rows ih =>
    intro db
    rw [List.foldl_cons, ih]
    by_cases hk : userKey r = k
    · rw [List.filter_cons, if_pos (by simp [hk])]
      by_cases hl : rows.filter (fun q => decide (userKey q = k)) = []
      · rw [hl]
        have hbase : (insertOrReplace db r).filter (fun q => decide (userKey q = k)) = [r] := by
          unfold insertOrReplace
          rw [List.filter_append, List.filter_filter]
          have h1 : List.filter (fun q => decide (userKey q = k))  [r] = [r] := by simp [hk]
          have h2 : List.filter
              (fun a => decide (userKey a = k) && decide (userKey a ≠ userKey r)) db = [] := by
            rw [List.filter_eq_nil_iff]
            intro a _
            by_cases hak : userKey a = k
            · simp [hak, hk]
            · simp [hak]
          rw [h1, h2, List.nil_append]
        rw [hbase]
        rfl
      · cases hft : rows.filter (fun q => decide (userKey q = k)) with
        | nil => exact absurd hft hl
        | cons b t =>
          rw [List.getLast?_cons_cons]
          rfl
    · rw [List.filter_cons, if_neg (by simp [hk])]
      have hrw : (insertOrReplace db r).filter (fun q => decide (userKey q = k)) =
          db.filter (fun q => decide (userKey q = k)) := by
        unfold insertOrReplace
        rw [List.filter_append, List.filter_filter]
        have h1 : List.filter (fun q => decide (userKey q = k)) [r] = [] := by simp [hk]
        rw [h1, List.append_nil]
        apply List.filter_congr
        intro a _
        by_cases hak : userKey a = k
        · have : k ≠ userKey r := fun he => hk he.symm
          simp [hak, this]
        · simp [hak]
      rw [hrw]

/-- C10: save_users_to_db is all-or-nothing per call: the whole batch is
written by a single bulk statement before a single commit, so when the
insert fails nothing of the call is persisted (the table is unchanged and
the call reports failure instead of a saved count), and when it succeeds
the whole normalized batch is applied row by row with replace-on-conflict -
unlike attendance appends, which commit chunk by chunk. -/
theorem C10_user_save_atomic (users : List PyUser) (device_ip : String) (db : List UserRow) :
    (save_users_to_db users device_ip true db).db = db ∧
      (save_users_to_db users device_ip true db).ok = false ∧
      (save_users_to_db users device_ip true db).savedCount = 0 ∧
      (save_users_to_db users device_ip false db).db =
        (users.map (userRowOf device_ip)).foldl insertOrReplace db ∧
      (save_users_to_db users device_ip false db).ok = true :=
  ⟨rfl, rfl, rfl, rfl, rfl⟩

/-- C3: after a successful save_users_to_db call, the rows stored under the
key (device_ip, uid) are exactly one row normalized from the last batch
record with that uid when the batch mentions the uid (replace-on-conflict,
last write wins - in particular re-ingesting changed fields for an existing
key leaves exactly one row holding the newest values), and the untouched
prior rows for that key otherwise. -/
theorem C3_user_upsert_supersede (db : List UserRow) (users : List PyUser)
    (device_ip : String) (uid : Int) :
    (save_users_to_db users device_ip false db).db.filter
        (fun r => decide (userKey r = (device_ip, uid))) =
      (match ((users.filter (fun u => decide (u.uid = uid))).map
          (userRowOf device_ip)).getLast? with
       | some r => [r]
       | none => db.filter (fun r => decide (userKey r = (device_ip, uid)))) := by
  show ((users.map (userRowOf device_ip)).foldl insertOrReplace db).filter _ = _
  rw [foldl_insertOrReplace_filter]
  have hmap : (users.map (userRowOf device_ip)).filter
      (fun r => decide (userKey r = (device_ip, uid))) =
      (users.filter (fun u => decide (u.uid = uid))).map (userRowOf device_ip) := by
    rw [List.filter_map]
    congr 1
    apply List.filter_congr
    intro u _
    simp [userKey, userRowOf, decide_eq_decide, Prod.ext_iff]
  rw [hmap]

/-! ### Name resolution and user normalization claims -/

/-- C7 counterexample: with the empty name registered under the uid key "1"
and nothing registered under the user_id key, resolution returns the empty
string although the uid key matches the index - so resolution does not
succeed whenever a name is registered under one of the keys, and the empty
string is not returned only when neither key matches. -/
theorem C7_counterexample :
    resolve [("1", "")] 1 "x" = "" ∧
      (dictGet [("1", "")] "1").isSome = true ∧
      dictGet [("1", "")] "x" = none := by
  decide

/-- C7 (amended): resolve tries the uid-as-string key first and falls back
to the user_id key whenever the uid key is missing or maps to the empty
name; it returns the empty string exactly when each of the two keys is
missing or maps to the empty name (in particular, a nonempty name registered
under either key is always found, the uid key preferred); it is total. -/
theorem C7_resolve_fallback (d : Dict) (uid : Int) (user_id : String) :
    (resolve d uid user_id = "" ↔
      ((dictGet d (toString uid)).getD "" = "" ∧ (dictGet d user_id).getD "" = "")) ∧
    ((dictGet d (toString uid)).getD "" ≠ "" →
      resolve d uid user_id = (dictGet d (toString uid)).getD "") ∧
    ((dictGet d (toString uid)).getD "" = "" →
      resolve d uid user_id = (dictGet d user_id).getD "") := by
  unfold resolve resolveStr pyOrStr
  by_cases h : (dictGet d (toString uid)).getD "" = "" <;> simp [h]

/-- Witness for C7: a nonempty name under the uid key is returned as is. -/
theorem C7_resolve_fallback_witness :
    ((dictGet [("2", "Bob")] (toString (2 : Int))).getD "" ≠ "") ∧
      resolve [("2", "Bob")] 2 "x" = (dictGet [("2", "Bob")] (toString (2 : Int))).getD "" :=
  ⟨by decide, (C7_resolve_fallback [("2", "Bob")] 2 "x").2.1 (by decide)⟩

/-- C9 counterexample: no threshold separates the raw privilege values that
normPrivilege maps to "Admin" from the rest: 14 is Admin but 15 (above it)
and 13 (below it) are both "User", so the Admin side is closed neither
upward nor downward. -/
theorem C9_counterexample :
    ¬ ∃ t : Int,
        (∀ p : Int, normPrivilege p = "Admin" ↔ t ≤ p) ∨
        (∀ p : Int, normPrivilege p = "Admin" ↔ p ≤ t) := by
  rintro ⟨t, h | h⟩
  · have h14 : t ≤ 14 := (h 14).mp (by decide)
    have h15 : normPrivilege 15 = "Admin" := (h 15).mpr (by omega)
    exact absurd h15 (by decide)
  · have h14 : 14 ≤ t := (h 14).mp (by decide)
    have h13 : normPrivilege 13 = "Admin" := (h 13).mpr (by omega)
    exact absurd h13 (by decide)

/-- C9 (amended): user normalization classifies the privilege as Admin
exactly when the raw value equals the admin constant 14 (restricted to the
documented device privilege constants 0, 2, 6, 14 this coincides with a
threshold test, only the top constant being Admin; the simple.py variant
labels "User" exactly for the default constant 0 and "Admin-p" otherwise);
optional fields default to the empty string when absent (the card also when
falsy); normalization never fails. -/
theorem C9_user_normalization (u : PyUser) (device_ip : String) :
    ((userRowOf device_ip u).privilege = "Admin" ↔ u.privilege = USER_ADMIN) ∧
    ((userRowOf device_ip u).privilege = "User" ↔ u.privilege ≠ USER_ADMIN) ∧
    (userRowOf device_ip u).name = u.name.getD "" ∧
    (userRowOf device_ip u).password = u.password.getD "" ∧
    (userRowOf device_ip u).group_id = u.group_id.getD "" ∧
    (userRowOf device_ip u).user_id = u.user_id.getD "" ∧
    (u.card = none → (userRowOf device_ip u).card = "") ∧
    ((normPrivilege 0 = "User" ∧ normPrivilege 2 = "User" ∧ normPrivilege 6 = "User" ∧
        normPrivilege 14 = "Admin") ∧
      (collectPrivilege 0 = "User" ∧ collectPrivilege 2 = "Admin-2" ∧
        collectPrivilege 6 = "Admin-6" ∧ collectPrivilege 14 = "Admin-14")) := by
  refine ⟨?_, ?_, rfl, rfl, rfl, rfl, ?_, by decide⟩
  · unfold userRowOf normPrivilege
    by_cases h : u.privilege = USER_ADMIN <;> simp [h]
  · unfold userRowOf normPrivilege
    by_cases h : u.privilege = USER_ADMIN <;> simp [h]
  · intro h
    simp [userRowOf, h]

/-- A concrete raw user used by the witnesses. -/
def sampleUser : PyUser :=
  { uid := 5, name := some "Bob", privilege := 14, password := none,
    group_id := some "g", user_id := some "05", card := none }

/-- Witness for C9: an absent card normalizes to the empty string. -/
theorem C9_user_normalization_witness :
    (sampleUser.card = none) ∧ (userRowOf "1.2.3.4" sampleUser).card = "" :=
  ⟨rfl, (C9_user_normalization sampleUser "1.2.3.4").2.2.2.2.2.2.1 rfl⟩

/-! ### Fleet loop characterizations -/

theorem syncUsersStep_success (b : UserDevBehavior) (st : UserFleetState) (d : Device) :
    (syncUsersStep b st d).success_count =
      st.success_count + (if userDevSucceeds b then 1 else 0) := by
  unfold syncUsersStep userDevSucceeds
  by_cases hc : b.connectOk
  · cases hu : b.users with
    | none => simp [hc, hu]
    | some us =>
      by_cases he : us.isEmpty <;> by_cases hr : b.releaseOk <;> simp [hc, hu, he, hr]
  · simp [hc]

theorem syncUsersStep_total (b : UserDevBehavior) (st : UserFleetState) (d : Device) :
    (syncUsersStep b st d).total_users = st.total_users + userDevCount b := by
  unfold syncUsersStep userDevCount
  by_cases hc : b.connectOk
  · cases hu : b.users with
    | none => simp [hc, hu]
    | some us =>
      by_cases he : us.isEmpty <;> by_cases hr : b.releaseOk <;>
        simp_all [List.isEmpty_iff, hc, hu, hr]
  · simp [hc]

theorem syncUsersStep_failed (b : UserDevBehavior) (st : UserFleetState) (d : Device) :
    (syncUsersStep b st d).failed_devices =
      st.failed_devices ++ (if userDevFails b then [deviceLabel d] else []) := by
  unfold syncUsersStep userDevFails
  by_cases hc : b.connectOk
  · cases hu : b.users with
    | none => simp [hc, hu]
    | some us =>
      by_cases he : us.isEmpty <;> by_cases hr : b.releaseOk <;> simp [hc, hu, he, hr]
  · simp [hc]

theorem syncUsersStep_released (b : UserDevBehavior) (st : UserFleetState) (d : Device) :
    (syncUsersStep b st d).released =
      st.released ++ (if userDevReleases b then [pyStrOf d.ip] else []) := by
  unfold syncUsersStep userDevReleases
  by_cases hc : b.connectOk
  · cases hu : b.users with
    | none => simp [hc, hu]
    | some us =>
      by_cases he : us.isEmpty <;> by_cases hr : b.releaseOk <;> simp [hc, hu, he, hr]
  · simp [hc]

theorem syncUsersFrom_spec (beh : Nat → UserDevBehavior) :
    ∀ (devices : List Device) (i : Nat) (st : UserFleetState),
      (syncUsersFrom beh i st devices).success_count =
          st.success_count +
            fleetCount beh (fun b => if userDevSucceeds b then 1 else 0) i devices ∧
        (syncUsersFrom beh i st devices).total_users =
          st.total_users + fleetCount beh userDevCount i devices ∧
        (syncUsersFrom beh i st devices).failed_devices =
          st.failed_devices ++ fleetCollect beh userDevFails deviceLabel i devices ∧
        (syncUsersFrom beh i st devices).released =
          st.released ++ fleetCollect beh userDevReleases (fun d => pyStrOf d.ip) i devices := by
  intro devices
  induction devices with
  | nil =>
    intro i st
    simp [syncUsersFrom, fleetCount, fleetCollect]
  | cons d ds ih =>
    intro i st
    obtain ⟨h1, h2, h3, h4⟩ := ih (i + 1) (syncUsersStep (beh i) st d)
    refine ⟨?_, ?_, ?_, ?_⟩
    · show (syncUsersFrom beh (i + 1) (syncUsersStep (beh i) st d) ds).success_count = _
      rw [h1, syncUsersStep_success]
      simp [fleetCount, Nat.add_assoc]
    · show (syncUsersFrom beh (i + 1) (syncUsersStep (beh i) st d) ds).total_users = _
      rw [h2, syncUsersStep_total]
      simp [fleetCount, Nat.add_assoc]
    · show (syncUsersFrom beh (i + 1) (syncUsersStep (beh i) st d) ds).failed_devices = _
      rw [h3, syncUsersStep_failed]
      simp [fleetCollect, List.append_assoc]
    · show (syncUsersFrom beh (i + 1) (syncUsersStep (beh i) st d) ds).released = _
      rw [h4, syncUsersStep_released]
      simp [fleetCollect, List.append_assoc]

theorem syncAttStep_success (b : AttDevBehavior) (st : AttFleetState) (d : Device) :
    (syncAttStep b st d).success_count =
      st.success_count + (if attDevSucceeds b then 1 else 0) := by
  unfold syncAttStep attDevSucceeds
  by_cases hc : b.connectOk
  · cases hu : b.users with
    | none => simp [hc, hu]
    | some us =>
      cases ha : b.atts with
      | none => simp [hc, hu, ha]
      | some l =>
        by_cases he : l.isEmpty <;> by_cases hr : b.releaseOk <;> simp [hc, hu, ha, he, hr]
  · simp [hc]

theorem syncAttStep_total (b : AttDevBehavior) (st : AttFleetState) (d : Device) :
    (syncAttStep b st d).total_records = st.total_records + attDevCount b := by
  unfold syncAttStep attDevCount
  by_cases hc : b.connectOk
  · cases hu : b.users with
    | none => simp [hc, hu]
    | some us =>
      cases ha : b.atts with
      | none => simp [hc, hu, ha]
      | some l =>
        by_cases he : l.isEmpty <;> by_cases hr : b.releaseOk <;>
          simp_all [List.isEmpty_iff, hc, hu, ha, hr]
  · simp [hc]

theorem syncAttStep_failed (b : AttDevBehavior) (st : AttFleetState) (d : Device) :
    (syncAttStep b st d).failed_devices =
      st.failed_devices ++ (if attDevFails b then [deviceLabel d] else []) := by
  unfold syncAttStep attDevFails
  by_cases hc : b.connectOk
  · cases hu : b.users with
    | none => simp [hc, hu]
    | some us =>
      cases ha : b.atts with
      | none => simp [hc, hu, ha]
      | some l =>
        by_cases he : l.isEmpty <;> by_cases hr : b.releaseOk <;> simp [hc, hu, ha, he, hr]
  · simp [hc]

theorem syncAttStep_released (b : AttDevBehavior) (st : AttFleetState) (d : Device) :
    (syncAttStep b st d).released =
      st.released ++ (if attDevReleases b then [pyStrOf d.ip] else []) := by
  unfold syncAttStep attDevReleases
  by_cases hc : b.connectOk
  · cases hu : b.users with
    | none => simp [hc, hu]
    | some us =>
      cases ha : b.atts with
      | none => simp [hc, hu, ha]
      | some l =>
        by_cases he : l.isEmpty <;> by_cases hr : b.releaseOk <;> simp [hc, hu, ha, he, hr]
  · simp [hc]

theorem syncAttFrom_spec (beh : Nat → AttDevBehavior) :
    ∀ (devices : List Device) (i : Nat) (st : AttFleetState),
      (syncAttFrom beh i st devices).success_count =
          st.success_count +
            fleetCount beh (fun b => if attDevSucceeds b then 1 else 0) i devices ∧
        (syncAttFrom beh i st devices).total_records =
          st.total_records + fleetCount beh attDevCount i devices ∧
        (syncAttFrom beh i st devices).failed_devices =
          st.failed_devices ++ fleetCollect beh attDevFails deviceLabel i devices ∧
        (syncAttFrom beh i st devices).released =
          st.released ++ fleetCollect beh attDevReleases (fun d => pyStrOf d.ip) i devices := by
  intro devices
  induction devices with
  | nil =>
    intro i st
    simp [syncAttFrom, fleetCount, fleetCollect]
  | cons d ds ih =>
    intro i st
    obtain ⟨h1, h2, h3, h4⟩ := ih (i + 1) (syncAttStep (beh i) st d)
    refine ⟨?_, ?_, ?_, ?_⟩
    · show (syncAttFrom beh (i + 1) (syncAttStep (beh i) st d) ds).success_count = _
      rw [h1, syncAttStep_success]
      simp [fleetCount, Nat.add_assoc]
    · show (syncAttFrom beh (i + 1) (syncAttStep (beh i) st d) ds).total_records = _
      rw [h2, syncAttStep_total]
      simp [fleetCount, Nat.add_assoc]
    · show (syncAttFrom beh (i + 1) (syncAttStep (beh i) st d) ds).failed_devices = _
      rw [h3, syncAttStep_failed]
      simp [fleetCollect, List.append_assoc]
    · show (syncAttFrom beh (i + 1) (syncAttStep (beh i) st d) ds).released = _
      rw [h4, syncAttStep_released]
      simp [fleetCollect, List.append_assoc]

theorem mem_fleetCollect {β : Type} (beh : Nat → β) (p : β → Bool) (lab : Device → String)
    (dflt : Device) :
    ∀ (devices : List Device) (i0 i : Nat), i < devices.length → p (beh (i0 + i)) = true →
      lab (devices.getD i dflt) ∈ fleetCollect beh p lab i0 devices := by
  intro devices
  induction devices with
  | nil =>
    intro i0 i h
    simp at h
  | cons d ds ih =>
    intro i0 i hlt hp
    cases i with
    | zero =>
      simp only [Nat.add_zero] at hp
      simp [fleetCollect, hp]
    | succ i =>
      have hp' : p (beh ((i0 + 1) + i)) = true := by
        rw [show (i0 + 1) + i = i0 + (i + 1) by omega]
        exact hp
      have := ih (i0 + 1) i (by simpa using hlt) hp'
      simp only [fleetCollect, List.getD_cons_succ]
      exact List.mem_append_right _ this

/-- C2: in both fleet loops, when the device at position i fails to connect
or its fetch raises, its label (name and ip) is recorded in the run report,
and the loop still processes every device: the reported success count, the
reported totals and the failed-device list are the corresponding tallies
over the whole device list, so the successes of devices after i are
reflected in the report. -/
theorem C2_fault_isolation (devices : List Device)
    (bu : Nat → UserDevBehavior) (ba : Nat → AttDevBehavior)
    (dbU : List UserRow) (dbA : List AttRow) (i : Nat) (hi : i < devices.length)
    (hu : ¬ (bu i).connectOk ∨ (bu i).users = none)
    (ha : ¬ (ba i).connectOk ∨ (ba i).users = none ∨ (ba i).atts = none) :
    (deviceLabel (devices.getD i { ip := none, name := none }) ∈
        (sync_all_devices_users bu devices dbU).failed_devices) ∧
      (sync_all_devices_users bu devices dbU).success_count =
        fleetCount bu (fun b => if userDevSucceeds b then 1 else 0) 0 devices ∧
      (sync_all_devices_users bu devices dbU).total_users =
        fleetCount bu userDevCount 0 devices ∧
      (sync_all_devices_users bu devices dbU).failed_devices =
        fleetCollect bu userDevFails deviceLabel 0 devices ∧
      (deviceLabel (devices.getD i { ip := none, name := none }) ∈
        (sync_all_devices_attendance ba devices dbA).failed_devices) ∧
      (sync_all_devices_attendance ba devices dbA).success_count =
        fleetCount ba (fun b => if attDevSucceeds b then 1 else 0) 0 devices ∧
      (sync_all_devices_attendance ba devices dbA).total_records =
        fleetCount ba attDevCount 0 devices ∧
      (sync_all_devices_attendance ba devices dbA).failed_devices =
        fleetCollect ba attDevFails deviceLabel 0 devices := by
  obtain ⟨hu1, hu2, hu3, hu4⟩ := syncUsersFrom_spec bu devices 0
    { db := dbU, total_users := 0, success_count := 0, failed_devices := [], released := [] }
  obtain ⟨ha1, ha2, ha3, ha4⟩ := syncAttFrom_spec ba devices 0
    { db := dbA, total_records := 0, success_count := 0, failed_devices := [], released := [] }
  have hufail : userDevFails (bu i) = true := by
    unfold userDevFails
    rcases hu with h | h <;> simp [h]
  have hafail : attDevFails (ba i) = true := by
    unfold attDevFails
    rcases ha with h | h | h <;> simp [h]
  refine ⟨?_, ?_, ?_, ?_, ?_, ?_, ?_, ?_⟩
  · show deviceLabel _ ∈ (syncUsersFrom bu 0 _ devices).failed_devices
    rw [hu3]
    exact List.mem_append_right _
      (mem_fleetCollect bu userDevFails deviceLabel _ devices 0 i hi (by simpa using hufail))
  · show (syncUsersFrom bu 0 _ devices).success_count = _
    rw [hu1]
    simp
  · show (syncUsersFrom bu 0 _ devices).total_users = _
    rw [hu2]
    simp
  · show (syncUsersFrom bu 0 _ devices).failed_devices = _
    rw [hu3]
    rfl
  · show deviceLabel _ ∈ (syncAttFrom ba 0 _ devices).failed_devices
    rw [ha3]
    exact List.mem_append_right _
      (mem_fleetCollect ba attDevFails deviceLabel _ devices 0 i hi (by simpa using hafail))
  · show (syncAttFrom ba 0 _ devices).success_count = _
    rw [ha1]
    simp
  · show (syncAttFrom ba 0 _ devices).total_records = _
    rw [ha2]
    simp
  · show (syncAttFrom ba 0 _ devices).failed_devices = _
    rw [ha3]
    rfl

/-! Concrete fleet runs used by the witnesses and counterexamples. -/

/-- A first sample device descriptor. -/
def sampleDevice : Device := { ip := some "10.0.0.5", name := some "Gate-A" }

/-- A second sample device descriptor. -/
def sampleDevice2 : Device := { ip := some "10.0.0.6", name := some "Gate-B" }

/-- A users visit that fails to connect. -/
def failUserBeh : UserDevBehavior :=
  { connectOk := false, users := none, saveFails := false, releaseOk := true }

/-- A users visit that fully succeeds. -/
def okUserBeh : UserDevBehavior :=
  { connectOk := true, users := some [sampleUser], saveFails := false, releaseOk := true }

/-- The users fleet behavior: the first device fails, the rest succeed. -/
def sampleUserBeh : Nat → UserDevBehavior := fun n => if n = 0 then failUserBeh else okUserBeh

/-- An attendance visit that fails to connect. -/
def failAttBeh : AttDevBehavior :=
  { connectOk := false, users := none, atts := none, chunkFails := noFail, releaseOk := true }

/-- An attendance visit that fully succeeds. -/
def okAttBeh : AttDevBehavior :=
  { connectOk := true, users := some [sampleUser], atts := some [sampleAtt],
    chunkFails := noFail, releaseOk := true }

/-- The attendance fleet behavior: the first device fails, the rest succeed. -/
def sampleAttBeh : Nat → AttDevBehavior := fun n => if n = 0 then failAttBeh else okAttBeh

/-- Witness for C2: on a two-device fleet whose first device fails to
connect, the failing device is reported and the second device's success is
still tallied. -/
theorem C2_fault_isolation_witness :
    (0 < ([sampleDevice, sampleDevice2] : List Device).length) ∧
      (¬ (sampleUserBeh 0).connectOk ∨ (sampleUserBeh 0).users = none) ∧
      (¬ (sampleAttBeh 0).connectOk ∨ (sampleAttBeh 0).users = none ∨
        (sampleAttBeh 0).atts = none) ∧
      ((deviceLabel (([sampleDevice, sampleDevice2] : List Device).getD 0
          { ip := none, name := none }) ∈
          (sync_all_devices_users sampleUserBeh [sampleDevice, sampleDevice2] []).failed_devices) ∧
        (sync_all_devices_users sampleUserBeh [sampleDevice, sampleDevice2] []).success_count =
          fleetCount sampleUserBeh (fun b => if userDevSucceeds b then 1 else 0) 0
            [sampleDevice, sampleDevice2] ∧
        (sync_all_devices_users sampleUserBeh [sampleDevice, sampleDevice2] []).total_users =
          fleetCount sampleUserBeh userDevCount 0 [sampleDevice, sampleDevice2] ∧
        (sync_all_devices_users sampleUserBeh [sampleDevice, sampleDevice2] []).failed_devices =
          fleetCollect sampleUserBeh userDevFails deviceLabel 0 [sampleDevice, sampleDevice2] ∧
        (deviceLabel (([sampleDevice, sampleDevice2] : List Device).getD 0
          { ip := none, name := none }) ∈
          (sync_all_devices_attendance sampleAttBeh [sampleDevice, sampleDevice2]
            []).failed_devices) ∧
        (sync_all_devices_attendance sampleAttBeh [sampleDevice, sampleDevice2]
            []).success_count =
          fleetCount sampleAttBeh (fun b => if attDevSucceeds b then 1 else 0) 0
            [sampleDevice, sampleDevice2] ∧
        (sync_all_devices_attendance sampleAttBeh [sampleDevice, sampleDevice2]
            []).total_records =
          fleetCount sampleAttBeh attDevCount 0 [sampleDevice, sampleDevice2] ∧
        (sync_all_devices_attendance sampleAttBeh [sampleDevice, sampleDevice2]
            []).failed_devices =
          fleetCollect sampleAttBeh attDevFails deviceLabel 0 [sampleDevice, sampleDevice2]) :=
  ⟨by decide, by decide, by decide,
    C2_fault_isolation [sampleDevice, sampleDevice2] sampleUserBeh sampleAttBeh [] [] 0
      (by decide) (by decide) (by decide)⟩

/-- C5 counterexample: on the fetch-failure exit path the session is not
released at all (the device stays in maintenance mode), and a failing
release is not swallowed: it records the device as failed even though the
fetch succeeded and the success count was already incremented. -/
theorem C5_counterexample :
    ((sync_all_devices_users
        (fun _ => { connectOk := true, users := none, saveFails := false, releaseOk := true })
        [sampleDevice] []).released = [] ∧
      (sync_all_devices_users
        (fun _ => { connectOk := true, users := none, saveFails := false, releaseOk := true })
        [sampleDevice] []).failed_devices = ["Gate-A (10.0.0.5)"]) ∧
    ((sync_all_devices_users
        (fun _ => { connectOk := true, users := some [sampleUser], saveFails := false,
                    releaseOk := false })
        [sampleDevice] []).success_count = 1 ∧
      (sync_all_devices_users
        (fun _ => { connectOk := true, users := some [sampleUser], saveFails := false,
                    releaseOk := false })
        [sampleDevice] []).failed_devices = ["Gate-A (10.0.0.5)"] ∧
      (sync_all_devices_users
        (fun _ => { connectOk := true, users := some [sampleUser], saveFails := false,
                    releaseOk := false })
        [sampleDevice] []).released = []) := by
  decide

/-- C5 (amended): in both fleet loops the session is released (device
re-enabled, then disconnected) exactly on the visits where connect and every
fetch succeed and the release actions themselves do not raise; on
connect/fetch failure exit paths no release is attempted, and a raising
release is caught by the per-device handler, which records the device in the
failed list (even when the fetch succeeded and the success count was already
incremented) and continues with the next device. -/
theorem C5_release_behavior (devices : List Device)
    (bu : Nat → UserDevBehavior) (ba : Nat → AttDevBehavior)
    (dbU : List UserRow) (dbA : List AttRow) :
    (sync_all_devices_users bu devices dbU).released =
        fleetCollect bu userDevReleases (fun d => pyStrOf d.ip) 0 devices ∧
      (sync_all_devices_users bu devices dbU).failed_devices =
        fleetCollect bu userDevFails deviceLabel 0 devices ∧
      (sync_all_devices_attendance ba devices dbA).released =
        fleetCollect ba attDevReleases (fun d => pyStrOf d.ip) 0 devices ∧
      (sync_all_devices_attendance ba devices dbA).failed_devices =
        fleetCollect ba attDevFails deviceLabel 0 devices := by
  obtain ⟨-, -, hu3, hu4⟩ := syncUsersFrom_spec bu devices 0
    { db := dbU, total_users := 0, success_count := 0, failed_devices := [], released := [] }
  obtain ⟨-, -, ha3, ha4⟩ := syncAttFrom_spec ba devices 0
    { db := dbA, total_records := 0, success_count := 0, failed_devices := [], released := [] }
  exact ⟨by rw [show (sync_all_devices_users bu devices dbU).released =
        (syncUsersFrom bu 0 _ devices).released from rfl, hu4]; rfl,
    by rw [show (sync_all_devices_users bu devices dbU).failed_devices =
        (syncUsersFrom bu 0 _ devices).failed_devices from rfl, hu3]; rfl,
    by rw [show (sync_all_devices_attendance ba devices dbA).released =
        (syncAttFrom ba 0 _ devices).released from rfl, ha4]; rfl,
    by rw [show (sync_all_devices_attendance ba devices dbA).failed_devices =
        (syncAttFrom ba 0 _ devices).failed_devices from rfl, ha3]; rfl⟩

/-! ### Live capture claims -/

theorem liveLoop_quit (d : Dict) (inputs : Nat → Option Char) :
    ∀ (k : Nat) (stream : List (Option RawAtt)) (i counter captured : Nat)
      (rows : List (List String)),
      k < stream.length →
      (∀ j, j < k → isQuit (inputs (i + j)) = false) →
      isQuit (inputs (i + k)) = true →
      liveLoop d inputs i counter captured rows stream =
        liveLoop d inputs i counter captured rows (stream.take k) := by
  intro k
  induction k with
  | zero =>
    intro stream i counter captured rows hlen hbefore hq
    cases stream with
    | nil => simp at hlen
    | cons e rest =>
      rw [Nat.add_zero] at hq
      simp [liveLoop, hq]
  | succ k ih =>
    intro stream i counter captured rows hlen hbefore hq
    cases stream with
    | nil => simp at hlen
    | cons e rest =>
      have h0 : isQuit (inputs i) = false := by simpa using hbefore 0 (Nat.succ_pos k)
      have hb' : ∀ j, j < k → isQuit (inputs ((i + 1) + j)) = false := by
        intro j hj
        rw [show (i + 1) + j = i + (j + 1) by omega]
        exact hbefore (j + 1) (by omega)
      have hq' : isQuit (inputs ((i + 1) + k)) = true := by
        rw [show (i + 1) + k = i + (k + 1) by omega]
        exact hq
      have hlen' : k < rest.length := by simpa using hlen
      rw [List.take_succ_cons]
      cases e with
      | none =>
        simp only [liveLoop, h0, Bool.false_eq_true, if_false]
        exact ih rest (i + 1) counter captured rows hlen' hb' hq'
      | some att =>
        simp only [liveLoop, h0, Bool.false_eq_true, if_false]
        exact ih rest (i + 1) (counter + 1) (captured + 1)
          (rows ++ [liveRow d (counter + 1) att]) hlen' hb' hq'

theorem liveLoop_counts (d : Dict) (inputs : Nat → Option Char)
    (hnq : ∀ j, isQuit (inputs j) = false) :
    ∀ (stream : List (Option RawAtt)) (i counter captured : Nat) (rows : List (List String)),
      (liveLoop d inputs i counter captured rows stream).1 =
          captured + (stream.filter (fun e => e.isSome)).length ∧
        (liveLoop d inputs i counter captured rows stream).2.length =
          rows.length + (stream.filter (fun e => e.isSome)).length := by
  intro stream
  induction stream with
  | nil =>
    intro i c cap rows
    simp [liveLoop]
  | cons e rest ih =>
    intro i c cap rows
    simp only [liveLoop, hnq i, Bool.false_eq_true, if_false]
    cases e with
    | none =>
      simpa [List.filter_cons] using ih (i + 1) c cap rows
    | some att =>
      obtain ⟨h1, h2⟩ := ih (i + 1) (c + 1) (cap + 1) (rows ++ [liveRow d (c + 1) att])
      constructor
      · rw [h1]
        simp [List.filter_cons]
        omega
      · rw [h2]
        simp [List.filter_cons]
        omega

/-- The real event of the live-capture scenario. -/
def demoAtt : RawAtt :=
  { user_id := some "05", timestamp := some "2024-01-02 09:30:00", uid := some 5,
    status := some 1, punch := some 0 }

/-- The scenario stream: five timeout sentinels, one real event, then the
element being received when the pending quit is noticed. -/
def demoStream : List (Option RawAtt) :=
  [none, none, none, none, none, some demoAtt, none]

/-- The scenario stdin polls: the quit keypress is pending from the seventh
poll on. -/
def demoInputs : Nat → Option Char := fun j => if j = 6 then some 'q' else none

/-- C8: the live-capture loop polls the cancellation signal once per
iteration before consuming the received element: if the quit signal first
turns up at iteration k, the run is exactly the run of the first k stream
elements (element k is neither counted nor displayed); timeout sentinels
never increment the captured count (without cancellation the count is the
number of real events); and in the scenario of five timeout sentinels, one
real event and then a pending cancellation, exactly one event is enriched
and displayed and the final count is 1. -/
theorem C8_live_capture_cancellation :
    (∀ (d : Dict) (inputs : Nat → Option Char) (stream : List (Option RawAtt)) (k : Nat),
        k < stream.length → (∀ j, j < k → isQuit (inputs j) = false) →
        isQuit (inputs k) = true →
        liveLoop d inputs 0 0 0 [] stream = liveLoop d inputs 0 0 0 [] (stream.take k)) ∧
      (∀ (d : Dict) (inputs : Nat → Option Char) (stream : List (Option RawAtt)),
        (∀ j, isQuit (inputs j) = false) →
        (liveLoop d inputs 0 0 0 [] stream).1 =
          (stream.filter (fun e => e.isSome)).length) ∧
      live_capture_interactive [sampleUser] demoInputs demoStream =
        (1, [["1", "5", "05", "Bob", "2024-01-02 09:30:00", "Check-Out"]]) := by
  refine ⟨?_, ?_, by decide⟩
  · intro d inputs stream k hk hb hq
    exact liveLoop_quit d inputs k stream 0 0 0 [] hk (by simpa using hb) (by simpa using hq)
  · intro d inputs stream hnq
    simpa using (liveLoop_counts d inputs hnq stream 0 0 0 []).1

/-- Witness for C8: in the scenario run the pending quit at the seventh poll
truncates the stream after the real event. -/
theorem C8_live_capture_cancellation_witness :
    (6 < demoStream.length) ∧ isQuit (demoInputs 6) = true ∧
      liveLoop (buildUsersDict [sampleUser]) demoInputs 0 0 0 [] demoStream =
        liveLoop (buildUsersDict [sampleUser]) demoInputs 0 0 0 [] (demoStream.take 6) :=
  ⟨by decide, by decide,
    C8_live_capture_cancellation.1 (buildUsersDict [sampleUser]) demoInputs demoStream 6
      (by decide)
      (by
        intro j hj
        have hne : j ≠ 6 := by omega
        simp [demoInputs, hne, isQuit])
      (by decide)⟩

end ZKTeco
